import Mathlib

/-!
# Verification of the KCRH referral/dispatch core (AMB_KCR.py)

Shallow embedding of the core classes of `AMB_KCR.py`:
`Hospital`, `Patient`, `Ambulance`, `ReferralSystem` and `AmbulanceTracker`.

Modelling choices:
* Python objects referenced from several places (patients, hospitals,
  ambulances) are stored in registries inside `RefState` and referenced by
  their index (a `Nat`), mirroring shared mutable references.
* `datetime.datetime.now()` is modelled by a session clock (`RefState.clock`,
  a `Nat`): every top-level operation reads the clock for its timestamps and
  advances it by one, so timestamps never decrease along an execution.
* Geographic coordinates and route points are pairs of rationals; the random
  jitter of `random.uniform(-0.0005, 0.0005)` is an oracle `Nat → ℚ × ℚ`
  (one pair of draws per loop iteration), constrained only by its range.
* The geodesic distance of `geopy` is external to the repository; operations
  that consume it (`simulate_movement`) take the computed distance as an
  argument.
-/

namespace AMBKCR

/-- Replace the element at index `i` by `f` of it; out-of-range is a no-op
(models in-place mutation of a Python object held in a list). -/
def listModify (f : α → α) : Nat → List α → List α
  | _, [] => []
  | 0, x :: xs => f x :: xs
  | n + 1, x :: xs => x :: listModify f n xs

/-- Apply `f` to the first element satisfying `p` (models mutating the object
returned by Python's `next(...)` over a list). -/
def updateFirst (p : α → Bool) (f : α → α) : List α → List α
  | [] => []
  | x :: xs => if p x then f x :: xs else x :: updateFirst p f xs

/-- Index of the first element satisfying `p`
(models `next((x for x in l if p x), None)` when the caller keeps the index). -/
def findIdxFrom (p : α → Bool) : List α → Option Nat
  | [] => none
  | x :: xs => if p x then some 0 else (findIdxFrom p xs).map (· + 1)

/-- `class Patient` (AMB_KCR.py lines 59-66). -/
structure Patient where
  name : String
  condition : String
  severity : Nat
  vital_signs : List (String × String) := []
  status : String := "waiting"
  transfer_completion_time : Option Nat := none
deriving DecidableEq, Repr

instance : Inhabited Patient := ⟨{ name := "", condition := "", severity := 0 }⟩

/-- `class Hospital` (AMB_KCR.py lines 33-56): `referrals_received` holds
patient ids; `available_beds` is a Python `int`, hence `Int`. -/
structure Hospital where
  name : String
  location : ℚ × ℚ
  capacity : Nat
  available_beds : Int
  type : String
  referrals_received : List Nat
deriving DecidableEq, Repr

instance : Inhabited Hospital :=
  ⟨{ name := "", location := (0, 0), capacity := 0, available_beds := 0,
     type := "general", referrals_received := [] }⟩

/-- `Hospital.__init__`: beds start at capacity, no referrals received. -/
def Hospital.init (name : String) (location : ℚ × ℚ) (capacity : Nat)
    (hospital_type : String) : Hospital :=
  { name := name, location := location, capacity := capacity,
    available_beds := (capacity : Int), type := hospital_type,
    referrals_received := [] }

/-- `Hospital.admit_patient` (lines 42-48): succeeds iff a bed is free; the
patient's own record is updated to "admitted" and returned alongside. -/
def Hospital.admit_patient (h : Hospital) (pid : Nat) (p : Patient) :
    Hospital × Patient × Bool :=
  if h.available_beds > 0 then
    ({ h with available_beds := h.available_beds - 1,
              referrals_received := h.referrals_received ++ [pid] },
     { p with status := "admitted" }, true)
  else (h, p, false)

/-- `Hospital.discharge_patient` (lines 50-56): succeeds iff the patient is in
`referrals_received`; removes its first occurrence. -/
def Hospital.discharge_patient (h : Hospital) (pid : Nat) (p : Patient) :
    Hospital × Patient × Bool :=
  if pid ∈ h.referrals_received then
    ({ h with referrals_received := h.referrals_received.erase pid,
              available_beds := h.available_beds + 1 },
     { p with status := "discharged" }, true)
  else (h, p, false)

/-- `class Ambulance` (lines 69-89): `current_patient` is a patient id,
`destination` a hospital id. -/
structure Ambulance where
  id : String
  location : ℚ × ℚ
  status : String := "available"
  current_patient : Option Nat := none
  destination : Option Nat := none
  route : List (ℚ × ℚ) := []
  eta : Option ℚ := none
deriving DecidableEq, Repr

instance : Inhabited Ambulance := ⟨{ id := "", location := (0, 0) }⟩

/-- `Ambulance.dispatch` (lines 79-82). -/
def Ambulance.dispatch (a : Ambulance) (pid : Nat) (dest : Nat) : Ambulance :=
  { a with status := "dispatched", current_patient := some pid,
           destination := some dest }

/-- `Ambulance.complete_transfer` (lines 84-89): back to "available",
stamp the current patient's completion time (if any), clear patient and
destination.  Note: `route` and `eta` are NOT touched. -/
def Ambulance.complete_transfer (a : Ambulance) (now : Nat)
    (patients : List Patient) : Ambulance × List Patient :=
  let patients' :=
    match a.current_patient with
    | some pid =>
      listModify (fun p => { p with transfer_completion_time := some now })
        pid patients
    | none => patients
  ({ a with status := "available", current_patient := none,
            destination := none }, patients')

/-- A referral request dict (lines 119-127); all object references are ids. -/
structure Referral where
  id : Nat
  patient : Nat
  from_hospital : Nat
  to_hospital : Nat
  ambulance : Nat
  timestamp : Nat
  status : String
deriving DecidableEq, Repr

/-- A row of `referral_history` (lines 100-103, 142-150). -/
structure HistoryRow where
  patient : String
  fromHospital : String
  toHospital : String
  ambulance : String
  status : String
  requestTime : Nat
  completionTime : Nat
deriving DecidableEq, Repr

/-- The session state: `ReferralSystem` plus the patient registry and the
session clock. -/
structure RefState where
  hospitals : List Hospital
  ambulances : List Ambulance
  referral_requests : List Referral
  referral_history : List HistoryRow
  patients : List Patient
  clock : Nat
deriving DecidableEq, Repr

/-- `ReferralSystem.find_available_ambulance` (lines 111-112), as the index of
the first ambulance whose status is "available". -/
def find_available_ambulance (st : RefState) : Option Nat :=
  findIdxFrom (fun a => a.status == "available") st.ambulances

/-- `ReferralSystem.create_referral` (lines 114-131).  A supplied ambulance
(`some i`) is used as-is (`ambulance or self.find_available_ambulance()`);
otherwise the first available one is selected.  Returns the created record
and the new state, or `none` with the state unchanged. -/
def create_referral (st : RefState) (pid fromH toH : Nat)
    (ambulance : Option Nat) : Option Referral × RefState :=
  let amb? := match ambulance with
    | some i => some i
    | none => find_available_ambulance st
  match amb? with
  | none => (none, st)
  | some i =>
    let referral : Referral :=
      { id := st.referral_requests.length + 1, patient := pid,
        from_hospital := fromH, to_hospital := toH, ambulance := i,
        timestamp := st.clock, status := "in_transit" }
    (some referral,
     { st with
        ambulances := listModify (fun a => a.dispatch pid toH) i st.ambulances,
        referral_requests := st.referral_requests ++ [referral],
        clock := st.clock + 1 })

/-- The ambulance after `referral["ambulance"].complete_transfer()`
(line 138): first component of `complete_transfer`. -/
def completed_amb (st : RefState) (r : Referral) : Ambulance :=
  ((st.ambulances.getD r.ambulance default).complete_transfer
    st.clock st.patients).1

/-- The patient registry after `complete_transfer` (line 138): second
component (the current patient, if any, gets its completion stamp). -/
def completed_patients (st : RefState) (r : Referral) : List Patient :=
  ((st.ambulances.getD r.ambulance default).complete_transfer
    st.clock st.patients).2

/-- The `new_entry` dict of `complete_referral` (lines 142-150). -/
def history_row (st : RefState) (r : Referral) : HistoryRow :=
  { patient := ((completed_patients st r).getD r.patient default).name,
    fromHospital := (st.hospitals.getD r.from_hospital default).name,
    toHospital := (st.hospitals.getD r.to_hospital default).name,
    ambulance := (completed_amb st r).id,
    status := "completed",
    requestTime := r.timestamp,
    completionTime := st.clock }

/-- The success branch of `complete_referral` (lines 138-152), applied to the
record `r` found under id `referral_id`. -/
def complete_step (st : RefState) (referral_id : Nat) (r : Referral) :
    Option Referral × RefState :=
  (some { r with status := "completed" },
   { st with
      ambulances := st.ambulances.set r.ambulance (completed_amb st r),
      patients := completed_patients st r,
      referral_requests :=
        updateFirst (fun x => x.id == referral_id)
          (fun x => { x with status := "completed" }) st.referral_requests,
      referral_history := st.referral_history ++ [history_row st r],
      clock := st.clock + 1 })

/-- `ReferralSystem.complete_referral` (lines 133-152).  Looks up the record
by id; on success completes the bound ambulance's transfer, marks the record
"completed", appends one history row, and returns the completed record. -/
def complete_referral (st : RefState) (referral_id : Nat) :
    Option Referral × RefState :=
  match st.referral_requests.find? (fun r => r.id == referral_id) with
  | none => (none, st)
  | some r => complete_step st referral_id r

/-- `AmbulanceTracker.generate_route` (lines 170-177): `num_points` linearly
interpolated points between `start` and `stop`, each perturbed by the jitter
oracle (two `random.uniform(-0.0005, 0.0005)` draws per iteration). -/
def generate_route (jitter : Nat → ℚ × ℚ) (start stop : ℚ × ℚ)
    (num_points : Nat) : List (ℚ × ℚ) :=
  let lat_diff := (stop.1 - start.1) / (num_points + 1)
  let lon_diff := (stop.2 - start.2) / (num_points + 1)
  (List.range num_points).map (fun k =>
    (start.1 + lat_diff * (k + 1 : Nat) + (jitter k).1,
     start.2 + lon_diff * (k + 1 : Nat) + (jitter k).2))

/-- `AmbulanceTracker.simulate_movement` (lines 162-168) on one ambulance:
sets eta from the externally computed geodesic distance, generates the route,
and forces status "en_route".  `current_patient` is not touched. -/
def Ambulance.simulate_movement (a : Ambulance) (dest_loc : ℚ × ℚ)
    (distance_km : ℚ) (speed_kmh : ℚ) (now : ℚ) (jitter : Nat → ℚ × ℚ) :
    Ambulance :=
  let minutes := distance_km / speed_kmh * 60
  { a with eta := some (now + minutes),
           route := generate_route jitter a.location dest_loc 6,
           status := "en_route" }

/-- `simulate_movement` acting on the ambulance stored at index `aidx` of the
session state (the tracker mutates an object of `system.ambulances`). -/
def simulate_movement_sys (st : RefState) (aidx : Nat) (dest_loc : ℚ × ℚ)
    (distance_km : ℚ) (speed_kmh : ℚ) (jitter : Nat → ℚ × ℚ) : RefState :=
  { st with
     ambulances :=
       listModify
         (fun a => a.simulate_movement dest_loc distance_km speed_kmh
           (st.clock : ℚ) jitter) aidx st.ambulances,
     clock := st.clock + 1 }

/-- The spec's ambulance invariant: `current_patient` is set iff the status
is not "available". -/
def ambInv (a : Ambulance) : Prop :=
  a.current_patient ≠ none ↔ a.status ≠ "available"

instance (a : Ambulance) : Decidable (ambInv a) := by
  unfold ambInv; infer_instance

/-- The spec's hospital invariant: beds within `[0, capacity]` and
conservation of beds plus admitted patients. -/
def hospInv (h : Hospital) : Prop :=
  0 ≤ h.available_beds ∧ h.available_beds ≤ (h.capacity : Int) ∧
    h.available_beds + h.referrals_received.length = (h.capacity : Int)

instance (h : Hospital) : Decidable (hospInv h) := by
  unfold hospInv; infer_instance

/-- Linear interpolation between two coordinates, the spec's reading of the
route formula. -/
def lerp (s e : ℚ × ℚ) (t : ℚ) : ℚ × ℚ :=
  (s.1 + (e.1 - s.1) * t, s.2 + (e.2 - s.2) * t)

/-- A concrete session used by witnesses and counterexamples: two hospitals,
one ambulance, two patients, nothing dispatched yet. -/
def exSt0 : RefState :=
  { hospitals := [Hospital.init "A" (0, 0) 5 "general",
                  Hospital.init "B" (1, 1) 3 "referral"],
    ambulances := [{ id := "AMB1", location := (0, 0) }],
    referral_requests := [], referral_history := [],
    patients := [{ name := "P0", condition := "trauma", severity := 4 },
                 { name := "P1", condition := "cardiac", severity := 5 }],
    clock := 0 }

/-- `exSt0` after `create_referral(P0, A, B)`: AMB1 dispatched, referral 1
in transit. -/
def exSt1 : RefState := (create_referral exSt0 0 0 1 none).2

/-- `exSt1` after `simulate_movement(AMB1, B.location)` with geodesic
distance 10 km and zero jitter: AMB1 en route, route and eta populated. -/
def exSt2 : RefState := simulate_movement_sys exSt1 0 (1, 1) 10 60 (fun _ => (0, 0))

/-- `exSt2` after the first `complete_referral(1)`. -/
def exSt3 : RefState := (complete_referral exSt2 1).2

/-- `exSt1` after `complete_referral(1)` (no movement simulated, so the
session carries no route arithmetic). -/
def exSt1c : RefState := (complete_referral exSt1 1).2

/-- A fresh ambulance as built by `Ambulance.__init__`. -/
def exAmb : Ambulance := { id := "AMB9", location := (0, 0) }

/-- A concrete hospital with five free beds. -/
def exHosp : Hospital := Hospital.init "A" (0, 0) 5 "general"

/-- A concrete waiting patient. -/
def exPat : Patient := { name := "P", condition := "trauma", severity := 4 }

/-- The referral record created by `create_referral` on `exSt0`. -/
def exRef1 : Referral :=
  { id := 1, patient := 0, from_hospital := 0, to_hospital := 1,
    ambulance := 0, timestamp := 0, status := "in_transit" }

/-! ## Helper lemmas about the list primitives -/

theorem length_listModify (f : α → α) (i : Nat) (l : List α) :
    (listModify f i l).length = l.length := by
  induction l generalizing i with
  | nil => cases i <;> rfl
  | cons x xs ih => cases i <;> simp [listModify, ih]

theorem listModify_oob (f : α → α) (l : List α) (i : Nat)
    (h : l.length ≤ i) : listModify f i l = l := by
  induction l generalizing i with
  | nil => cases i <;> rfl
  | cons x xs ih =>
    cases i with
    | zero => simp at h
    | succ n =>
      simp only [listModify]
      rw [ih n (by simpa using h)]

theorem getD_oob (l : List α) (i : Nat) (d : α) (h : l.length ≤ i) :
    l.getD i d = d := by
  induction l generalizing i with
  | nil => rfl
  | cons x xs ih =>
    cases i with
    | zero => simp at h
    | succ n => simpa using ih n (by simpa using h)

theorem getD_listModify_self (f : α → α) (l : List α) (i : Nat) (d : α)
    (h : i < l.length) :
    (listModify f i l).getD i d = f (l.getD i d) := by
  induction l generalizing i with
  | nil => simp at h
  | cons x xs ih =>
    cases i with
    | zero => rfl
    | succ n => simpa [listModify] using ih n (by simpa using h)

theorem getD_listModify_ne (f : α → α) (l : List α) (i j : Nat) (d : α)
    (h : j ≠ i) : (listModify f i l).getD j d = l.getD j d := by
  induction l generalizing i j with
  | nil => cases i <;> rfl
  | cons x xs ih =>
    cases i with
    | zero =>
      cases j with
      | zero => exact absurd rfl h
      | succ m => rfl
    | succ n =>
      cases j with
      | zero => rfl
      | succ m =>
        simpa [listModify] using ih n m (fun hh => h (by rw [hh]))

theorem set_oob (l : List α) (i : Nat) (a : α) (h : l.length ≤ i) :
    l.set i a = l := by
  induction l generalizing i with
  | nil => rfl
  | cons x xs ih =>
    cases i with
    | zero => simp at h
    | succ n =>
      simp only [List.set]
      rw [ih n (by simpa using h)]

theorem getD_set_self (l : List α) (i : Nat) (a d : α) (h : i < l.length) :
    (l.set i a).getD i d = a := by
  induction l generalizing i with
  | nil => simp at h
  | cons x xs ih =>
    cases i with
    | zero => rfl
    | succ n => simpa [List.set] using ih n (by simpa using h)

theorem getD_set_ne (l : List α) (i j : Nat) (a : α) (d : α)
    (h : j ≠ i) : (l.set i a).getD j d = l.getD j d := by
  induction l generalizing i j with
  | nil => rfl
  | cons x xs ih =>
    cases i with
    | zero =>
      cases j with
      | zero => exact absurd rfl h
      | succ m => rfl
    | succ n =>
      cases j with
      | zero => rfl
      | succ m =>
        simpa [List.set] using ih n m (fun hh => h (by rw [hh]))

theorem findIdxFrom_eq_none (p : α → Bool) (l : List α) :
    findIdxFrom p l = none ↔ ∀ x ∈ l, p x = false := by
  induction l with
  | nil => simp [findIdxFrom]
  | cons x xs ih =>
    by_cases hx : p x
    · simp [findIdxFrom, hx]
    · simp only [findIdxFrom, hx, if_false, Option.map_eq_none']
      simp [ih, hx]

theorem findIdxFrom_eq_some (p : α → Bool) (l : List α) (i : Nat) (d : α)
    (h : findIdxFrom p l = some i) :
    i < l.length ∧ p (l.getD i d) = true ∧
      ∀ j, j < i → p (l.getD j d) = false := by
  induction l generalizing i with
  | nil => simp [findIdxFrom] at h
  | cons x xs ih =>
    by_cases hx : p x
    · simp [findIdxFrom, hx] at h
      subst h
      simpa using hx
    · simp only [findIdxFrom, hx, if_false] at h
      cases ho : findIdxFrom p xs with
      | none => rw [ho] at h; exact absurd h (by simp)
      | some m =>
        rw [ho, Option.map_some'] at h
        injection h with h
        subst h
        obtain ⟨h1, h2, h3⟩ := ih m ho
        refine ⟨by simpa using Nat.succ_lt_succ h1, by simpa using h2, ?_⟩
        intro j hj
        cases j with
        | zero => simpa using hx
        | succ k => simpa using h3 k (Nat.lt_of_succ_lt_succ hj)

theorem find?_updateFirst (q : α → Bool) (f : α → α) (l : List α) (r : α)
    (hf : ∀ x, q (f x) = q x) (h : l.find? q = some r) :
    (updateFirst q f l).find? q = some (f r) := by
  induction l with
  | nil => simp at h
  | cons x xs ih =>
    by_cases hx : q x
    · rw [List.find?_cons_of_pos _ hx] at h
      injection h with h
      subst h
      simp [updateFirst, hx, List.find?_cons_of_pos, hf]
    · rw [List.find?_cons_of_neg _ hx] at h
      simp [updateFirst, hx, List.find?_cons_of_neg, ih h]

/-! ## Characterisation lemmas for the ledger operations -/

theorem create_referral_none_of_unavailable (st : RefState)
    (pid fromH toH : Nat)
    (h : ∀ a ∈ st.ambulances, a.status ≠ "available") :
    create_referral st pid fromH toH none = (none, st) := by
  have hfa : find_available_ambulance st = none := by
    rw [find_available_ambulance, findIdxFrom_eq_none]
    intro a ha
    simpa using h a ha
  simp [create_referral, hfa]

theorem create_referral_some_inv (st : RefState) (pid fromH toH : Nat)
    (r : Referral) (st' : RefState)
    (h : create_referral st pid fromH toH none = (some r, st')) :
    find_available_ambulance st = some r.ambulance ∧
    r = { id := st.referral_requests.length + 1, patient := pid,
          from_hospital := fromH, to_hospital := toH,
          ambulance := r.ambulance, timestamp := st.clock,
          status := "in_transit" } ∧
    st' = { st with
             ambulances :=
               listModify (fun a => a.dispatch pid toH) r.ambulance
                 st.ambulances,
             referral_requests := st.referral_requests ++ [r],
             clock := st.clock + 1 } := by
  cases hfa : find_available_ambulance st with
  | none => simp [create_referral, hfa] at h
  | some i =>
    simp only [create_referral, hfa, Prod.mk.injEq, Option.some.injEq] at h
    obtain ⟨h1, h2⟩ := h
    subst h1
    exact ⟨rfl, rfl, by rw [← h2]⟩

theorem complete_referral_none_of_unknown (st : RefState) (rid : Nat)
    (h : ∀ r ∈ st.referral_requests, r.id ≠ rid) :
    complete_referral st rid = (none, st) := by
  have hf : st.referral_requests.find? (fun r => r.id == rid) = none := by
    rw [List.find?_eq_none]
    intro x hx
    simpa using h x hx
  simp [complete_referral, hf]

theorem complete_referral_found (st : RefState) (rid : Nat) (r : Referral)
    (h : st.referral_requests.find? (fun x => x.id == rid) = some r) :
    complete_referral st rid = complete_step st rid r := by
  simp [complete_referral, h]

theorem complete_referral_some_inv (st : RefState) (rid : Nat)
    (r1 : Referral) (st1 : RefState)
    (h : complete_referral st rid = (some r1, st1)) :
    ∃ r, st.referral_requests.find? (fun x => x.id == rid) = some r ∧
      r1 = { r with status := "completed" } ∧
      st1 = (complete_step st rid r).2 := by
  cases hf : st.referral_requests.find? (fun x => x.id == rid) with
  | none => simp [complete_referral, hf] at h
  | some r =>
    rw [complete_referral_found st rid r hf] at h
    simp only [complete_step, Prod.mk.injEq, Option.some.injEq] at h
    exact ⟨r, rfl, h.1.symm, h.2.symm⟩

theorem completed_amb_eq (st : RefState) (r : Referral) :
    completed_amb st r =
      { st.ambulances.getD r.ambulance default with
        status := "available", current_patient := none,
        destination := none } := rfl

theorem completed_patients_some (st : RefState) (r : Referral) (pid : Nat)
    (h : (st.ambulances.getD r.ambulance default).current_patient
           = some pid) :
    completed_patients st r =
      listModify (fun p => { p with transfer_completion_time := some st.clock })
        pid st.patients := by
  have h' : (st.ambulances[r.ambulance]?.getD default).current_patient
      = some pid := by simpa using h
  simp [completed_patients, Ambulance.complete_transfer, h']

theorem completed_patients_none (st : RefState) (r : Referral)
    (h : (st.ambulances.getD r.ambulance default).current_patient = none) :
    completed_patients st r = st.patients := by
  have h' : (st.ambulances[r.ambulance]?.getD default).current_patient
      = none := by simpa using h
  simp [completed_patients, Ambulance.complete_transfer, h']

/-- The ambulance bound to `r` after the completion step: patient and
destination cleared, status "available", identity preserved (also covers an
out-of-range index, where the registry is untouched). -/
theorem amb_after_complete (st : RefState) (rid : Nat) (r : Referral) :
    ((complete_step st rid r).2.ambulances.getD r.ambulance default).current_patient
        = none ∧
    ((complete_step st rid r).2.ambulances.getD r.ambulance default).status
        = "available" ∧
    ((complete_step st rid r).2.ambulances.getD r.ambulance default).id
        = (completed_amb st r).id := by
  by_cases hai : r.ambulance < st.ambulances.length
  · have hs : (complete_step st rid r).2.ambulances.getD r.ambulance default
        = completed_amb st r := getD_set_self _ _ _ _ hai
    rw [hs, completed_amb_eq]
    exact ⟨rfl, rfl, rfl⟩
  · have hlen : st.ambulances.length ≤ r.ambulance := le_of_not_lt hai
    have hs : (complete_step st rid r).2.ambulances.getD r.ambulance default
        = default := by
      show (st.ambulances.set r.ambulance (completed_amb st r)).getD
          r.ambulance default = default
      rw [set_oob _ _ _ hlen, getD_oob _ _ _ hlen]
    rw [hs, completed_amb_eq, getD_oob _ _ _ hlen]
    exact ⟨rfl, rfl, rfl⟩

/-! ## Claims -/

/-- C6: for every hospital, `0 ≤ available_beds ≤ capacity` and
`available_beds + len(referrals_received) = capacity` hold initially and are
preserved by every `admit_patient` and `discharge_patient` call; a successful
admit decrements `available_beds` by exactly 1, a successful discharge
increments it by exactly 1, and a failed call leaves the hospital unchanged,
never leaving the `[0, capacity]` bound. -/
theorem hospital_bed_invariant (n : String) (loc : ℚ × ℚ) (cap : Nat)
    (ty : String) (h : Hospital) (pid : Nat) (p : Patient)
    (hinv : hospInv h) :
    hospInv (Hospital.init n loc cap ty) ∧
    hospInv (h.admit_patient pid p).1 ∧
    hospInv (h.discharge_patient pid p).1 ∧
    ((h.admit_patient pid p).2.2 = true →
      (h.admit_patient pid p).1.available_beds = h.available_beds - 1) ∧
    ((h.discharge_patient pid p).2.2 = true →
      (h.discharge_patient pid p).1.available_beds = h.available_beds + 1) ∧
    ((h.admit_patient pid p).2.2 = false → (h.admit_patient pid p).1 = h) ∧
    ((h.discharge_patient pid p).2.2 = false →
      (h.discharge_patient pid p).1 = h) := by
  obtain ⟨h0, h1, h2⟩ := hinv
  refine ⟨?_, ?_, ?_, ?_, ?_, ?_, ?_⟩
  · simp [hospInv, Hospital.init]
  · by_cases hb : h.available_beds > 0
    · simp only [Hospital.admit_patient, hb, if_true, hospInv,
        List.length_append, List.length_singleton]
      push_cast
      omega
    · simpa [Hospital.admit_patient, hb, hospInv] using ⟨h0, h1, h2⟩
  · by_cases hm : pid ∈ h.referrals_received
    · have hlen := List.length_erase_of_mem hm
      have hpos : 1 ≤ h.referrals_received.length :=
        List.length_pos.mpr (List.ne_nil_of_mem hm)
      simp only [Hospital.discharge_patient, hm, if_true, hospInv, hlen]
      omega
    · simpa [Hospital.discharge_patient, hm, hospInv] using ⟨h0, h1, h2⟩
  · intro hs
    by_cases hb : h.available_beds > 0
    · simp [Hospital.admit_patient, hb]
    · simp [Hospital.admit_patient, hb] at hs
  · intro hs
    by_cases hm : pid ∈ h.referrals_received
    · simp [Hospital.discharge_patient, hm]
    · simp [Hospital.discharge_patient, hm] at hs
  · intro hs
    by_cases hb : h.available_beds > 0
    · simp [Hospital.admit_patient, hb] at hs
    · simp [Hospital.admit_patient, hb]
  · intro hs
    by_cases hm : pid ∈ h.referrals_received
    · simp [Hospital.discharge_patient, hm] at hs
    · simp [Hospital.discharge_patient, hm]

/-- Witness for C6: the invariant is discharged on a concrete hospital and
the theorem applied there. -/
theorem hospital_bed_invariant_witness :
    hospInv exHosp ∧ hospInv (exHosp.admit_patient 0 exPat).1 :=
  ⟨by decide,
   (hospital_bed_invariant "A" (0, 0) 5 "general" exHosp 0 exPat
      (by decide)).2.1⟩

/-- C7: `create_referral` with no supplied ambulance and no available
ambulance returns the failure indicator and leaves the whole state (hospitals,
patients, ambulances, ledger, history) unchanged. -/
theorem create_referral_no_available_no_mutation (st : RefState)
    (pid fromH toH : Nat)
    (h : ∀ a ∈ st.ambulances, a.status ≠ "available") :
    create_referral st pid fromH toH none = (none, st) :=
  create_referral_none_of_unavailable st pid fromH toH h

/-- Witness for C7: in `exSt1` the only ambulance is dispatched. -/
theorem create_referral_no_available_no_mutation_witness :
    (∀ a ∈ exSt1.ambulances, a.status ≠ "available") ∧
    create_referral exSt1 0 0 1 none = (none, exSt1) :=
  ⟨by decide,
   create_referral_no_available_no_mutation exSt1 0 0 1 (by decide)⟩

/-- C8: `complete_referral` on an id matching no record returns the failure
indicator, appends no history row, and leaves all state unchanged. -/
theorem complete_referral_unknown_id_noop (st : RefState) (rid : Nat)
    (h : ∀ r ∈ st.referral_requests, r.id ≠ rid) :
    complete_referral st rid = (none, st) :=
  complete_referral_none_of_unknown st rid h

/-- Witness for C8: id 7 matches nothing in `exSt1`. -/
theorem complete_referral_unknown_id_noop_witness :
    (∀ r ∈ exSt1.referral_requests, r.id ≠ 7) ∧
    complete_referral exSt1 7 = (none, exSt1) :=
  ⟨by decide, complete_referral_unknown_id_noop exSt1 7 (by decide)⟩

/-- C10: `admit_patient` checks only `available_beds > 0`, never the
patient's status or prior membership: with a free bed the call succeeds for
any patient, and admitting the same patient twice (with two free beds)
decrements `available_beds` twice and stores the patient id twice. -/
theorem admit_no_membership_check (h : Hospital) (pid : Nat) (p : Patient) :
    (0 < h.available_beds → (h.admit_patient pid p).2.2 = true) ∧
    (2 ≤ h.available_beds →
      ((h.admit_patient pid p).1.admit_patient pid
          (h.admit_patient pid p).2.1).2.2 = true ∧
      ((h.admit_patient pid p).1.admit_patient pid
          (h.admit_patient pid p).2.1).1.available_beds
        = h.available_beds - 2 ∧
      ((h.admit_patient pid p).1.admit_patient pid
          (h.admit_patient pid p).2.1).1.referrals_received.count pid
        = h.referrals_received.count pid + 2) := by
  constructor
  · intro hb
    simp [Hospital.admit_patient, hb]
  · intro hb
    have hb1 : h.available_beds > 0 := by omega
    have hb2 : h.available_beds - 1 > 0 := by omega
    simp only [Hospital.admit_patient, hb1, if_true, hb2,
      List.count_append, List.count_singleton]
    refine ⟨trivial, by ring, by simp [List.count_append]⟩

/-- Witness for C10: two admissions of the same patient on a concrete
hospital with five beds. -/
theorem admit_no_membership_check_witness :
    2 ≤ exHosp.available_beds ∧
    ((exHosp.admit_patient 0 exPat).1.admit_patient 0
        (exHosp.admit_patient 0 exPat).2.1).1.available_beds
      = exHosp.available_beds - 2 :=
  ⟨by decide, ((admit_no_membership_check exHosp 0 exPat).2 (by decide)).2.1⟩

/-- C3 counterexample: on a freshly constructed (hence invariant-respecting)
ambulance, `simulate_movement` forces status "en_route" without assigning a
patient, so "current_patient is set iff status ≠ available" is NOT preserved
by every core operation. -/
theorem simulate_movement_breaks_invariant :
    ambInv exAmb ∧
    ¬ ambInv (exAmb.simulate_movement (1, 1) 10 60 0 (fun _ => (0, 0))) := by
  decide

/-- C3 (amended): the invariant "current_patient is set iff status ≠
available" holds for a freshly constructed ambulance and is preserved by
`dispatch` and `complete_transfer`; `simulate_movement` leaves
`current_patient` untouched and preserves the invariant only when the
ambulance already carries a patient. -/
theorem ambulance_invariant_preservation (i : String) (loc : ℚ × ℚ)
    (a : Ambulance) (pid dest now : Nat) (ps : List Patient)
    (dl : ℚ × ℚ) (dist speed : ℚ) (t : ℚ) (jit : Nat → ℚ × ℚ) :
    ambInv { id := i, location := loc } ∧
    ambInv (a.dispatch pid dest) ∧
    ambInv (a.complete_transfer now ps).1 ∧
    (a.simulate_movement dl dist speed t jit).current_patient
      = a.current_patient ∧
    (a.current_patient ≠ none →
      ambInv (a.simulate_movement dl dist speed t jit)) := by
  refine ⟨?_, ?_, ?_, rfl, ?_⟩
  · simp [ambInv]
  · simp [ambInv, Ambulance.dispatch]
  · simp [ambInv, Ambulance.complete_transfer]
  · intro hcp
    simp only [ambInv, Ambulance.simulate_movement]
    constructor
    · intro _
      decide
    · intro _
      exact hcp

/-- Witness for C3: `simulate_movement` applied after `dispatch` keeps the
invariant. -/
theorem ambulance_invariant_preservation_witness :
    (exAmb.dispatch 0 1).current_patient ≠ none ∧
    ambInv ((exAmb.dispatch 0 1).simulate_movement (1, 1) 10 60 0
      (fun _ => (0, 0))) :=
  ⟨by decide,
   (ambulance_invariant_preservation "A" (0, 0) (exAmb.dispatch 0 1) 0 1 0 []
      (1, 1) 10 60 0 (fun _ => (0, 0))).2.2.2.2 (by decide)⟩

/-- C2 counterexample: in `exSt1` the only ambulance is "dispatched" (not
"available"), yet `create_referral` with that ambulance supplied explicitly
still succeeds and appends an "in_transit" record — so a non-available
ambulance IS selected for dispatch, and no ambulance transitions
available→dispatched on that call. -/
theorem supplied_ambulance_bypasses_status_check :
    (exSt1.ambulances.getD 0 default).status = "dispatched" ∧
    (create_referral exSt1 1 0 1 (some 0)).1.isSome = true ∧
    ((create_referral exSt1 1 0 1 (some 0)).1.map (fun r => r.status))
      = some "in_transit" ∧
    ((create_referral exSt1 1 0 1 (some 0)).2.ambulances.getD 0 default).status
      = "dispatched" ∧
    (create_referral exSt1 1 0 1 (some 0)).2.referral_requests.length
      = exSt1.referral_requests.length + 1 := by
  decide

/-- C2 (amended): when no ambulance is supplied, `create_referral` never
selects an ambulance whose status is not "available"; after a successful such
call the selected ambulance is "dispatched", every other ambulance is
unchanged, and exactly one referral record with status "in_transit" has been
appended.  (When the caller supplies an ambulance its status is not checked.) -/
theorem create_referral_available_only_when_auto (st : RefState)
    (pid fromH toH : Nat) (r : Referral) (st' : RefState)
    (h : create_referral st pid fromH toH none = (some r, st')) :
    (st.ambulances.getD r.ambulance default).status = "available" ∧
    (st'.ambulances.getD r.ambulance default).status = "dispatched" ∧
    (∀ j, j ≠ r.ambulance →
      st'.ambulances.getD j default = st.ambulances.getD j default) ∧
    r.status = "in_transit" ∧
    st'.referral_requests = st.referral_requests ++ [r] := by
  obtain ⟨hfa, hr, hst⟩ := create_referral_some_inv st pid fromH toH r st' h
  have hfi := findIdxFrom_eq_some (fun a => a.status == "available")
    st.ambulances r.ambulance default (by simpa [find_available_ambulance] using hfa)
  obtain ⟨hlt, hp, _⟩ := hfi
  subst hst
  refine ⟨by simpa using hp, ?_, ?_, ?_, rfl⟩
  · show ((listModify (fun a => a.dispatch pid toH) r.ambulance
        st.ambulances).getD r.ambulance default).status = "dispatched"
    rw [getD_listModify_self _ _ _ _ hlt]
    rfl
  · intro j hj
    exact getD_listModify_ne _ _ _ _ _ hj
  · rw [hr]

/-- Witness for C2: the successful auto-selection call on `exSt0`. -/
theorem create_referral_available_only_when_auto_witness :
    create_referral exSt0 0 0 1 none = (some exRef1, exSt1) ∧
    (exSt0.ambulances.getD 0 default).status = "available" :=
  ⟨by decide,
   (create_referral_available_only_when_auto exSt0 0 0 1 exRef1 exSt1
      (by decide)).1⟩

/-- C4: `create_referral` without a supplied ambulance returns the failure
indicator when no ambulance is available; on success it selects the FIRST
available ambulance in registration order, sets it to "dispatched", binds the
patient and destination hospital to it, appends the returned record with
status "in_transit". -/
theorem create_referral_first_fit (st : RefState) (pid fromH toH : Nat) :
    ((∀ a ∈ st.ambulances, a.status ≠ "available") →
      create_referral st pid fromH toH none = (none, st)) ∧
    (∀ r st', create_referral st pid fromH toH none = (some r, st') →
      r.ambulance < st.ambulances.length ∧
      (st.ambulances.getD r.ambulance default).status = "available" ∧
      (∀ j, j < r.ambulance →
        (st.ambulances.getD j default).status ≠ "available") ∧
      (st'.ambulances.getD r.ambulance default).status = "dispatched" ∧
      (st'.ambulances.getD r.ambulance default).current_patient = some pid ∧
      (st'.ambulances.getD r.ambulance default).destination = some toH ∧
      r.status = "in_transit" ∧
      st'.referral_requests = st.referral_requests ++ [r]) := by
  constructor
  · exact create_referral_none_of_unavailable st pid fromH toH
  · intro r st' h
    obtain ⟨hfa, hr, hst⟩ := create_referral_some_inv st pid fromH toH r st' h
    have hfi := findIdxFrom_eq_some (fun a => a.status == "available")
      st.ambulances r.ambulance default
      (by simpa [find_available_ambulance] using hfa)
    obtain ⟨hlt, hp, hfirst⟩ := hfi
    subst hst
    have hself : (listModify (fun a => a.dispatch pid toH) r.ambulance
        st.ambulances).getD r.ambulance default
        = (st.ambulances.getD r.ambulance default).dispatch pid toH :=
      getD_listModify_self _ _ _ _ hlt
    refine ⟨hlt, by simpa using hp, ?_, ?_, ?_, ?_, ?_, rfl⟩
    · intro j hj
      simpa using hfirst j hj
    · rw [show ({ st with
          ambulances := listModify (fun a => a.dispatch pid toH) r.ambulance
            st.ambulances,
          referral_requests := st.referral_requests ++ [r],
          clock := st.clock + 1 } : RefState).ambulances
        = listModify (fun a => a.dispatch pid toH) r.ambulance st.ambulances
        from rfl, hself]
      rfl
    · rw [show ({ st with
          ambulances := listModify (fun a => a.dispatch pid toH) r.ambulance
            st.ambulances,
          referral_requests := st.referral_requests ++ [r],
          clock := st.clock + 1 } : RefState).ambulances
        = listModify (fun a => a.dispatch pid toH) r.ambulance st.ambulances
        from rfl, hself]
      rfl
    · rw [show ({ st with
          ambulances := listModify (fun a => a.dispatch pid toH) r.ambulance
            st.ambulances,
          referral_requests := st.referral_requests ++ [r],
          clock := st.clock + 1 } : RefState).ambulances
        = listModify (fun a => a.dispatch pid toH) r.ambulance st.ambulances
        from rfl, hself]
      rfl
    · rw [hr]

/-- Witness for C4: the concrete successful call on `exSt0`. -/
theorem create_referral_first_fit_witness :
    create_referral exSt0 0 0 1 none = (some exRef1, exSt1) ∧
    (exSt1.ambulances.getD 0 default).current_patient = some 0 :=
  ⟨by decide,
   ((create_referral_first_fit exSt0 0 0 1).2 exRef1 exSt1
      (by decide)).2.2.2.2.1⟩

/-- C9: for bounded jitter, `generate_route start stop n` returns exactly `n`
points; the `i`-th point (0-based) is the linear interpolation of start and
stop at fraction `(i+1)/(n+1)` perturbed independently in each coordinate by
that iteration's jitter, which lies in `[-0.0005, 0.0005]`; and the
interpolation fractions increase strictly monotonically. -/
theorem generate_route_spec (jitter : Nat → ℚ × ℚ) (s e : ℚ × ℚ) (n : Nat)
    (hj : ∀ k, |(jitter k).1| ≤ 1 / 2000 ∧ |(jitter k).2| ≤ 1 / 2000) :
    (generate_route jitter s e n).length = n ∧
    (∀ i, i < n →
      (generate_route jitter s e n).getD i (0, 0)
        = ((lerp s e ((i + 1 : ℚ) / (n + 1))).1 + (jitter i).1,
           (lerp s e ((i + 1 : ℚ) / (n + 1))).2 + (jitter i).2) ∧
      |(jitter i).1| ≤ 1 / 2000 ∧ |(jitter i).2| ≤ 1 / 2000) ∧
    (∀ i j, i < j → j < n →
      ((i + 1 : ℚ) / (n + 1)) < ((j + 1 : ℚ) / (n + 1))) := by
  refine ⟨by simp [generate_route], ?_, ?_⟩
  · intro i hi
    refine ⟨?_, hj i⟩
    have hget : (List.range n)[i]? = some i := by
      simp [List.getElem?_range, hi]
    simp only [generate_route, List.getD_eq_getElem?_getD, List.getElem?_map,
      hget, Option.map_some', Option.getD_some, lerp, Prod.mk.injEq]
    constructor <;> (push_cast; ring)
  · intro i j hij hjn
    have hpos : (0 : ℚ) < (n : ℚ) + 1 := by positivity
    rw [div_lt_div_iff_of_pos_right hpos]
    have : (i : ℚ) < (j : ℚ) := by exact_mod_cast hij
    linarith

/-- Witness for C9: zero jitter on a concrete segment. -/
theorem generate_route_spec_witness :
    (∀ k : Nat, |((fun _ : Nat => ((0 : ℚ), (0 : ℚ))) k).1| ≤ 1 / 2000 ∧
          |((fun _ : Nat => ((0 : ℚ), (0 : ℚ))) k).2| ≤ 1 / 2000) ∧
    (generate_route (fun _ => (0, 0)) (0, 0) (1, 1) 2).length = 2 :=
  ⟨fun _ => by norm_num,
   (generate_route_spec (fun _ => (0, 0)) (0, 0) (1, 1) 2
      (fun _ => by norm_num)).1⟩

/-- C1 counterexample: after `simulate_movement` populated `route` and `eta`,
a successful `complete_referral` returns the ambulance to "available" but
leaves `route` and `eta` SET — they are not cleared as the claim states
(`complete_transfer` touches only status, `current_patient` and
`destination`). -/
theorem complete_referral_keeps_route_eta :
    (complete_referral exSt2 1).1.isSome = true ∧
    (exSt3.ambulances.getD 0 default).status = "available" ∧
    (exSt3.ambulances.getD 0 default).current_patient = none ∧
    (exSt3.ambulances.getD 0 default).destination = none ∧
    (exSt3.ambulances.getD 0 default).route ≠ [] ∧
    (exSt3.ambulances.getD 0 default).eta ≠ none := by
  decide

/-- C1 (amended): for a referral record found by `complete_referral` under a
valid id, bound to an ambulance carrying the record's patient, the call
returns the ambulance to "available" with `current_patient` and `destination`
cleared (`route` and `eta` are left unchanged), stamps the patient's
`transfer_completion_time`, sets the record's status to "completed", and
appends exactly one history row whose Patient / From Hospital / To Hospital /
Ambulance fields match the original referral and whose Completion Time is ≥
the Request Time. -/
theorem complete_referral_success_effects (st : RefState) (rid : Nat)
    (r : Referral)
    (hfind : st.referral_requests.find? (fun x => x.id == rid) = some r)
    (hai : r.ambulance < st.ambulances.length)
    (hpi : r.patient < st.patients.length)
    (hcp : (st.ambulances.getD r.ambulance default).current_patient
             = some r.patient)
    (hts : r.timestamp ≤ st.clock) :
    ∃ st', complete_referral st rid
        = (some { r with status := "completed" }, st') ∧
      (st'.ambulances.getD r.ambulance default).status = "available" ∧
      (st'.ambulances.getD r.ambulance default).current_patient = none ∧
      (st'.ambulances.getD r.ambulance default).destination = none ∧
      (st'.ambulances.getD r.ambulance default).route
        = (st.ambulances.getD r.ambulance default).route ∧
      (st'.ambulances.getD r.ambulance default).eta
        = (st.ambulances.getD r.ambulance default).eta ∧
      (st'.patients.getD r.patient default).transfer_completion_time
        = some st.clock ∧
      st'.referral_requests.find? (fun x => x.id == rid)
        = some { r with status := "completed" } ∧
      ∃ row, st'.referral_history = st.referral_history ++ [row] ∧
        row.patient = (st.patients.getD r.patient default).name ∧
        row.fromHospital = (st.hospitals.getD r.from_hospital default).name ∧
        row.toHospital = (st.hospitals.getD r.to_hospital default).name ∧
        row.ambulance = (st.ambulances.getD r.ambulance default).id ∧
        row.requestTime = r.timestamp ∧
        row.completionTime = st.clock ∧
        row.requestTime ≤ row.completionTime := by
  refine ⟨(complete_step st rid r).2, ?_, ?_, ?_, ?_, ?_, ?_, ?_, ?_, ?_⟩
  · rw [complete_referral_found st rid r hfind]
    rfl
  · rw [show (complete_step st rid r).2.ambulances
        = st.ambulances.set r.ambulance (completed_amb st r) from rfl,
      getD_set_self _ _ _ _ hai, completed_amb_eq]
  · rw [show (complete_step st rid r).2.ambulances
        = st.ambulances.set r.ambulance (completed_amb st r) from rfl,
      getD_set_self _ _ _ _ hai, completed_amb_eq]
  · rw [show (complete_step st rid r).2.ambulances
        = st.ambulances.set r.ambulance (completed_amb st r) from rfl,
      getD_set_self _ _ _ _ hai, completed_amb_eq]
  · rw [show (complete_step st rid r).2.ambulances
        = st.ambulances.set r.ambulance (completed_amb st r) from rfl,
      getD_set_self _ _ _ _ hai, completed_amb_eq]
  · rw [show (complete_step st rid r).2.ambulances
        = st.ambulances.set r.ambulance (completed_amb st r) from rfl,
      getD_set_self _ _ _ _ hai, completed_amb_eq]
  · rw [show (complete_step st rid r).2.patients
        = completed_patients st r from rfl,
      completed_patients_some st r r.patient hcp,
      getD_listModify_self _ _ _ _ hpi]
  · rw [show (complete_step st rid r).2.referral_requests
        = updateFirst (fun x => x.id == rid)
            (fun x => { x with status := "completed" })
            st.referral_requests from rfl]
    exact find?_updateFirst _ _ _ _ (fun x => rfl) hfind
  · refine ⟨history_row st r, rfl, ?_, rfl, rfl, ?_, rfl, rfl, hts⟩
    · rw [show (history_row st r).patient
          = ((completed_patients st r).getD r.patient default).name from rfl,
        completed_patients_some st r r.patient hcp,
        getD_listModify_self _ _ _ _ hpi]
    · rw [show (history_row st r).ambulance = (completed_amb st r).id from rfl,
        completed_amb_eq]

/-- Witness for C1: the first completion on the tracked session `exSt2`. -/
theorem complete_referral_success_effects_witness :
    exSt2.referral_requests.find? (fun x => x.id == 1) = some exRef1 ∧
    ∃ st', complete_referral exSt2 1
        = (some { exRef1 with status := "completed" }, st') ∧
      (st'.ambulances.getD 0 default).status = "available" := by
  refine ⟨by decide, ?_⟩
  obtain ⟨st', h1, h2, _⟩ :=
    complete_referral_success_effects exSt2 1 exRef1 (by decide) (by decide)
      (by decide) (by decide) (by decide)
  exact ⟨st', h1, h2⟩

/-- C5: `complete_referral` is NOT idempotent: after a successful completion,
a second call with the same id finds the (never removed) record, whose
ambulance is already "available", succeeds again, and appends a second
history row matching the first in Patient / From Hospital / To Hospital /
Ambulance / Request Time — so the history then holds two rows for that
referral. -/
theorem double_completion_duplicates_history (st : RefState) (rid : Nat)
    (r1 : Referral) (st1 : RefState)
    (h : complete_referral st rid = (some r1, st1)) :
    (st1.ambulances.getD r1.ambulance default).status = "available" ∧
    ∃ r2 st2, complete_referral st1 rid = (some r2, st2) ∧
      st2.referral_history.length = st.referral_history.length + 2 ∧
      ∃ row1 row2,
        st2.referral_history = st.referral_history ++ [row1, row2] ∧
        row1.patient = row2.patient ∧
        row1.fromHospital = row2.fromHospital ∧
        row1.toHospital = row2.toHospital ∧
        row1.ambulance = row2.ambulance ∧
        row1.requestTime = row2.requestTime := by
  obtain ⟨r, hfind, hr1, hst1⟩ := complete_referral_some_inv st rid r1 st1 h
  subst hr1
  subst hst1
  have hfind2 : (complete_step st rid r).2.referral_requests.find?
      (fun x => x.id == rid) = some { r with status := "completed" } :=
    find?_updateFirst _ _ _ _ (fun x => rfl) hfind
  have hcall2 := complete_referral_found (complete_step st rid r).2 rid
      { r with status := "completed" } hfind2
  have hcp2 : ((complete_step st rid r).2.ambulances.getD
      r.ambulance default).current_patient = none :=
    (amb_after_complete st rid r).1
  refine ⟨(amb_after_complete st rid r).2.1,
    { r with status := "completed" },
    (complete_step (complete_step st rid r).2 rid
      { r with status := "completed" }).2,
    ?_, ?_,
    history_row st r,
    history_row (complete_step st rid r).2 { r with status := "completed" },
    ?_, ?_, rfl, rfl, ?_, rfl⟩
  · rw [hcall2]
    rfl
  · show (((st.referral_history ++ [history_row st r]) ++
      [history_row (complete_step st rid r).2
        { r with status := "completed" }]).length)
      = st.referral_history.length + 2
    simp
  · show ((st.referral_history ++ [history_row st r]) ++
      [history_row (complete_step st rid r).2
        { r with status := "completed" }])
      = st.referral_history ++ [history_row st r,
          history_row (complete_step st rid r).2
            { r with status := "completed" }]
    simp
  · show ((completed_patients st r).getD r.patient default).name
      = ((completed_patients (complete_step st rid r).2
          { r with status := "completed" }).getD r.patient default).name
    rw [completed_patients_none (complete_step st rid r).2
      { r with status := "completed" } hcp2]
    rfl
  · show (completed_amb st r).id
      = (completed_amb (complete_step st rid r).2
          { r with status := "completed" }).id
    rw [completed_amb_eq (complete_step st rid r).2
      { r with status := "completed" }]
    exact ((amb_after_complete st rid r).2.2).symm

/-- Witness for C5: the concrete double completion on `exSt2`. -/
theorem double_completion_duplicates_history_witness :
    complete_referral exSt1 1
      = (some { exRef1 with status := "completed" }, exSt1c) ∧
    (exSt1c.ambulances.getD 0 default).status = "available" :=
  ⟨by decide,
   (double_completion_duplicates_history exSt1 1
      { exRef1 with status := "completed" } exSt1c (by decide)).1⟩

end AMBKCR
